import Mathlib

/-!
Verification of the browser-driven contact-extraction pipeline in
src/linkedin-contact-cli/src/index.js, as a shallow embedding: pure text
extractors and URL classifiers are translated directly, and the effectful
parts (page navigation, DOM reads, the main driver) are modelled as
functions over explicit environments whose fields carry the outcome of
each fallible browser operation (Except String carries a thrown message).
-/

namespace Banks

/-! ## A small backtracking regex engine

The source matches text with JavaScript regexes. The two extraction
patterns and the three classifier patterns only use literals,
alternation, optional groups and greedy bounded repetition of a single
character class, so we embed exactly that fragment with standard
leftmost-greedy backtracking semantics. -/

/-- Regex fragment used by the source patterns. `rep p lo hi` is greedy
repetition of the character class `p` (`hi = none` means unbounded). -/
inductive RE where
  | eps : RE
  | ch (p : Char → Bool) : RE
  | seq (a b : RE) : RE
  | alt (a b : RE) : RE
  | rep (p : Char → Bool) (lo : Nat) (hi : Option Nat) : RE

/-- Candidate lengths for a greedy repetition, longest first: `hi, ..., lo`. -/
def repLens (lo hi : Nat) : List Nat :=
  if hi < lo then [] else (List.range (hi - lo + 1)).map (fun i => hi - i)

/-- All anchored matches of a regex at the head of `l`, as (consumed, rest)
pairs in backtracking priority order: the head of the result is the match
a leftmost-greedy engine (JavaScript) produces at this position. -/
def reMatches : RE → List Char → List (List Char × List Char)
  | .eps, l => [([], l)]
  | .ch _, [] => []
  | .ch p, c :: r => if p c then [([c], r)] else []
  | .seq a b, l =>
    ((reMatches a l).map (fun x => (reMatches b x.2).map (fun y => (x.1 ++ y.1, y.2)))).flatten
  | .alt a b, l => reMatches a l ++ reMatches b l
  | .rep p lo hi, l =>
    let run := (l.takeWhile p).length
    let top := match hi with | some h => min h run | none => run
    (repLens lo top).map (fun k => (l.take k, l.drop k))

/-- Global (`/g`) scan over the text: at each position try an anchored
match; on success emit it and continue after it, on failure advance one
character. `fuel` only forces termination; it is instantiated with the
text length plus one, which is always enough. -/
def reScan : Nat → RE → List Char → List (List Char)
  | 0, _, _ => []
  | _ + 1, _, [] => []
  | fuel + 1, r, l =>
    match (reMatches r l).head? with
    | some (m, rst) =>
      if m.isEmpty then reScan fuel r l.tail else m :: reScan fuel r rst
    | none => reScan fuel r l.tail

/-- Unanchored membership test, the semantics of `RegExp.prototype.test`. -/
def reTest (r : RE) (l : List Char) : Bool :=
  l.tails.any (fun t => !(reMatches r t).isEmpty)

/-- Literal string as a regex. -/
def litRE (s : List Char) : RE :=
  s.foldr (fun c r => .seq (.ch (fun x => x == c)) r) .eps

/-- Greedy optional group `x?`. -/
def optRE (x : RE) : RE := .alt x .eps

/-- Character class `[A-Z0-9._%+-]` under the `i` flag. -/
def isLocalChar (c : Char) : Bool :=
  c.isAlphanum || c == '.' || c == '_' || c == '%' || c == '+' || c == '-'

/-- Character class `[A-Z0-9.-]` under the `i` flag. -/
def isDomainChar (c : Char) : Bool :=
  c.isAlphanum || c == '.' || c == '-'

/-- Character class `[A-Z]` under the `i` flag. -/
def isAsciiLetter (c : Char) : Bool := c.isAlpha

/-- The class `\d` without the `u` flag: ASCII digits only. In particular
Arabic-Indic and Eastern Arabic-Indic digit characters are not in `\d`. -/
def isAsciiDigit (c : Char) : Bool := c.isDigit

/-- Character class `[\s-]`: whitespace or hyphen. -/
def isSepChar (c : Char) : Bool := c.isWhitespace || c == '-'

/-- Character class `[^/]`. -/
def isNonSlash (c : Char) : Bool := !(c == '/')

/-! ## Text extractors (index.js lines 26-48) -/

/-- The email pattern `[A-Z0-9._%+-]+@[A-Z0-9.-]+\.[A-Z]{2,}` (flags `gi`). -/
def emailRE : RE :=
  .seq (.rep isLocalChar 1 none)
    (.seq (.ch (fun c => c == '@'))
      (.seq (.rep isDomainChar 1 none)
        (.seq (.ch (fun c => c == '.')) (.rep isAsciiLetter 2 none))))

/-- The phone pattern
`(?:\+\d{1,3}[\s-]?)?(?:\(?\d{2,4}\)?[\s-]?)?\d{3,4}[\s-]?\d{3,4}` (flag `g`).
Note there is no digit-normalization step anywhere around it in the source. -/
def phoneRE : RE :=
  .seq (optRE (.seq (.ch (fun c => c == '+'))
    (.seq (.rep isAsciiDigit 1 (some 3)) (optRE (.ch isSepChar)))))
    (.seq (optRE (.seq (optRE (.ch (fun c => c == '(')))
      (.seq (.rep isAsciiDigit 2 (some 4))
        (.seq (optRE (.ch (fun c => c == ')'))) (optRE (.ch isSepChar))))))
      (.seq (.rep isAsciiDigit 3 (some 4))
        (.seq (optRE (.ch isSepChar)) (.rep isAsciiDigit 3 (some 4)))))

/-- First-occurrence deduplication: the order-preserving behaviour of
`Array.from(new Set(xs))`, which compares by exact string equality. -/
def dedupGo (seen : List String) : List String → List String
  | [] => []
  | x :: xs => if seen.contains x then dedupGo seen xs else x :: dedupGo (x :: seen) xs

/-- `Array.from(new Set(l))`. -/
def jsSetDedup (l : List String) : List String := dedupGo [] l

/-- `String.prototype.trim`: strip whitespace from both ends. -/
def jsTrim (s : String) : String :=
  String.mk (((s.data.dropWhile Char.isWhitespace).reverse.dropWhile Char.isWhitespace).reverse)

/-- `startsWith` over strings, via character lists. -/
def strStartsWith (s pre : String) : Bool := pre.data.isPrefixOf s.data

/-- `extractEmails` (index.js lines 26-29):
`Array.from(new Set(text.match(emailRegex) || []))`. -/
def extractEmails (text : String) : List String :=
  jsSetDedup ((reScan (text.length + 1) emailRE text.data).map String.mk)

/-- `extractPhones` (index.js lines 31-34):
`Array.from(new Set((text.match(phoneRegex) || []).map(p => p.trim())))`. -/
def extractPhones (text : String) : List String :=
  jsSetDedup ((reScan (text.length + 1) phoneRE text.data).map (fun m => jsTrim (String.mk m)))

/-- `toAbsoluteUrl` (index.js lines 36-40). A falsy string is the empty
string; anything not starting with `http` gets the fixed origin prefix. -/
def toAbsoluteUrl (url : String) : String :=
  if url == "" then url
  else if strStartsWith url ("http") then url
  else "https://www.linkedin.com" ++ url

/-- `isProfileUrl` (index.js lines 42-44): `/linkedin\.com\/in\//.test(url)`. -/
def isProfileUrl (url : String) : Bool :=
  reTest (litRE ("linkedin.com/in/".data)) url.data

/-- `isPeopleCollectionUrl` (index.js lines 46-48):
`/linkedin\.com\/(company|school)\/[^/]+\/people\/?/.test(url) ||
/linkedin\.com\/search\/results\/people/.test(url)`. -/
def isPeopleCollectionUrl (url : String) : Bool :=
  reTest (.seq (litRE ("linkedin.com/".data))
    (.seq (.alt (litRE ("company".data)) (litRE ("school".data)))
      (.seq (litRE ("/".data))
        (.seq (.rep isNonSlash 1 none)
          (.seq (litRE ("/people".data)) (.rep (fun c => c == '/') 0 (some 1))))))) url.data
  || reTest (litRE ("linkedin.com/search/results/people".data)) url.data

/-! ## Input reading and classification (index.js lines 18-24 and 190-192) -/

/-- Split on `/\r?\n/` as `String.prototype.split` does. -/
def jsSplitLines : List Char → List (List Char)
  | [] => [[]]
  | '\r' :: '\n' :: rest => [] :: jsSplitLines rest
  | '\n' :: rest => [] :: jsSplitLines rest
  | c :: rest =>
    match jsSplitLines rest with
    | [] => [[c]]
    | l :: ls => (c :: l) :: ls

/-- `readLines` (index.js lines 18-24): split the file content into lines,
trim each, and drop blank lines and lines starting with `#`. -/
def readLines (content : String) : List String :=
  ((jsSplitLines content.data).map (fun l => jsTrim (String.mk l))).filter
    (fun l => !(l == "") && !(strStartsWith l ("#")))

/-- The classification step of `main` (index.js lines 190-192): dedupe the
raw inputs by exact string, then filter into direct-profile URLs and
collection URLs with the two predicates. -/
def classifyInputs (content : String) : List String × List String :=
  let urls := jsSetDedup (readLines content)
  (urls.filter isProfileUrl, urls.filter isPeopleCollectionUrl)

/-! ## Collection expander (index.js lines 60-86) -/

/-- Outcome of one round of the harvesting loop: the `$$eval` href harvest
(which can throw) and the scroll-plus-wait tail of the round (which can
throw). -/
structure RoundEnv where
  hrefs : Except String (List String)
  post : Except String Unit

/-- Environment of one collection page: navigation outcome and the
per-round outcomes. -/
structure CollectionEnv where
  gotoRes : Except String Unit
  rounds : List RoundEnv

/-- `href.split(x)[0]`: the characters before the first occurrence of `c`. -/
def takeUntilChar (c : Char) (l : List Char) : List Char :=
  l.takeWhile (fun x => !(x == c))

/-- `href.split('#')[0].split('?')[0]` (index.js line 71). -/
def cleanHref (h : String) : String :=
  String.mk (takeUntilChar '?' (takeUntilChar '#' h.data))

/-- The inner `for (const href of hrefs)` loop (index.js lines 69-74):
skip falsy hrefs, clean, insert into the accumulating set when it is a
profile URL, and break as soon as the set reaches `maxProfiles`. -/
def harvestRound (maxProfiles : Nat) (collected : List String) : List String → List String
  | [] => collected
  | h :: t =>
    if h == "" then harvestRound maxProfiles collected t
    else
      let clean := cleanHref h
      let c2 := if isProfileUrl clean && !(collected.contains clean) then
        collected ++ [clean] else collected
      if maxProfiles ≤ c2.length then c2 else harvestRound maxProfiles c2 t

/-- The outer harvesting loop (index.js lines 67-81). A throw in the href
harvest or in the scroll-wait tail exits to the catch on line 82, which
swallows it, so the accumulated set is returned. -/
def expandLoop (maxProfiles : Nat) (collected : List String) : List RoundEnv → List String
  | [] => collected
  | r :: rest =>
    match r.hrefs with
    | .error _ => collected
    | .ok hs =>
      let c2 := harvestRound maxProfiles collected hs
      if maxProfiles ≤ c2.length then c2
      else
        match r.post with
        | .error _ => c2
        | .ok _ => expandLoop maxProfiles c2 rest

/-- `expandPeopleCollectionToProfiles` (index.js lines 60-86): a failed
navigation is swallowed and yields the empty accumulation; otherwise at
most 15 rounds run. -/
def expandPeopleCollectionToProfiles (env : CollectionEnv) (maxProfiles : Nat) : List String :=
  match env.gotoRes with
  | .error _ => []
  | .ok _ => expandLoop maxProfiles [] (env.rounds.take 15)

/-! ## Target extractor (index.js lines 126-169) -/

/-- One extraction record (index.js line 127), with `error` set only by
the catch on line 166. -/
structure Record where
  url : String
  name : String
  headline : String
  emails : List String
  phones : List String
  links : List String
  error : Option String
deriving DecidableEq

/-- Environment of one profile page visit. Fields carry the outcome of
each browser operation that can throw past the inner catches; operations
whose failures are caught inline (`textContent().catch(() => ...)`,
`isVisible().catch(() => false)`, `click().catch(() => {})`) are carried
as already-recovered values. -/
structure PageEnv where
  gotoRes : Except String Unit
  nameRaw : Option String
  headlineRaw : Option String
  contactVisible : Bool
  interactRes : Except String Unit
  contentRes : Except String String
  hrefsRes : Except String (List (Option String))

/-- `(text?)?.trim() || ''` as applied on index.js lines 133-134. -/
def optText : Option String → String
  | none => ""
  | some t => jsTrim t

/-- The link allow-list test (index.js lines 156-160): mail or telephone
scheme, the profile-path signature, or a recognized social/portfolio
keyword, all as substring tests, the keyword list case-insensitively. -/
def socialKeywords : List String :=
  ["twitter.com", "github.com", "facebook.com", "instagram.com",
   "youtube.com", "medium.com", "personal", "portfolio", "site", "blog"]

def keepLink (clean : String) : Bool :=
  reTest (.alt (litRE ("mailto:".data)) (litRE ("tel:".data))) clean.data
  || reTest (litRE ("linkedin.com/in/".data)) clean.data
  || (socialKeywords.any (fun k => reTest (litRE (k.data)) (clean.data.map Char.toLower)))

/-- The anchor-collection loop (index.js lines 149-164): skip falsy
hrefs, absolutize, keep allow-listed links, dedupe at the end. -/
def collectLinks (hrefs : List (Option String)) : List String :=
  jsSetDedup (hrefs.filterMap (fun oh =>
    match oh with
    | none => none
    | some h =>
      if h == "" then none
      else
        let clean := toAbsoluteUrl h
        if keepLink clean then some clean else none))

/-- `scrapeProfile` (index.js lines 126-169). The record starts with all
fields empty; each successful step fills fields in program order; the
first step that throws stops the sequence and the catch on line 165
stores the message in `error`, leaving the partially filled record. -/
def scrapeProfile (env : PageEnv) (url : String) : Record :=
  let r0 : Record := ⟨url, "", "", [], [], [], none⟩
  match env.gotoRes with
  | .error m => { r0 with error := some m }
  | .ok _ =>
    let r1 := { r0 with name := optText env.nameRaw, headline := optText env.headlineRaw }
    match (if env.contactVisible then env.interactRes else Except.ok ()) with
    | .error m => { r1 with error := some m }
    | .ok _ =>
      match env.contentRes with
      | .error m => { r1 with error := some m }
      | .ok text =>
        let r2 := { r1 with emails := extractEmails text, phones := extractPhones text }
        match env.hrefsRes with
        | .error m => { r2 with error := some m }
        | .ok hrefs => { r2 with links := collectLinks hrefs }

/-! ## Sequencer, target list, export, and the main resource flow -/

/-- The merged target list (index.js line 208): dedupe the concatenation
of direct inputs and collection discoveries, then keep profile URLs. -/
def finalTargets (direct expanded : List String) : List String :=
  (jsSetDedup (direct ++ expanded)).filter isProfileUrl

/-- The sequential fetch loop (index.js lines 220-226): one record is
appended per target, in target-list order. `envOf` gives the page
environment each visit encounters. -/
def runSequencer (envOf : String → PageEnv) (targets : List String) : List Record :=
  targets.map (fun u => scrapeProfile (envOf u) u)

/-- The CSV transform for a list field (index.js lines 233-238):
`(obj.xs || []).join('; ')`. No reordering happens anywhere on the way
to either output mode. -/
def csvListField (l : List String) : String := String.intercalate ("; ") l

/-- Lexicographic order on character lists by codepoint. -/
def charListLe : List Char → List Char → Bool
  | [], _ => true
  | _ :: _, [] => false
  | a :: as, b :: bs => if a = b then charListLe as bs else decide (a < b)

/-- Modelled from the spec: ascending sortedness of a list field under
string comparison (the comparator the spec calls locale-aware; on the
ASCII inputs used below every locale agrees with codepoint order). Used
only to compare the spec claim against the exported data. -/
def sortedAsc : List String → Bool
  | [] => true
  | [_] => true
  | a :: b :: t => charListLe a.data b.data && sortedAsc (b :: t)

/-- Resource events of the first browser session in `main`. -/
inductive MEv where
  | launched : MEv
  | closed : MEv
deriving DecidableEq

/-- The first-session resource flow of `main` (index.js lines 194-206):
launch and context creation, then `applyEnvCookies` (its `addCookies`
call on line 112 can throw), then `ensureLoggedIn` (its `goto` on line
117 can throw), then the expansion loop (total: every failure is
swallowed inside the expander), then `browserPre.close()`. There is no
try/finally: an exception from the cookie or login step propagates out
of `main` to the `main().catch` handler on line 248 and `close` never
runs. -/
def phase1Events (cookiesRes loginRes : Except String Unit) : List MEv × Except String Unit :=
  match cookiesRes with
  | .error m => ([MEv.launched], .error m)
  | .ok _ =>
    match loginRes with
    | .error m => ([MEv.launched], .error m)
    | .ok _ => ([MEv.launched, MEv.closed], .ok ())

/-! ## Concrete environments used by the claim theorems -/

/-- A page whose full text carries two emails in descending order and
nothing else of interest. -/
def c7env : PageEnv :=
  ⟨Except.ok (), none, none, false, Except.ok (), Except.ok "b@x.com a@x.com", Except.ok []⟩

/-- A fully successful page visit. -/
def c2env : PageEnv :=
  ⟨Except.ok (), some " Alice Doe ", some "Engineer", false, Except.ok (),
   Except.ok "reach me: b@x.com a@x.com", Except.ok [some "/in/bob", none, some "mailto:b@x.com"]⟩

/-- A collection whose harvesting loop finds five targets in three rounds
and then throws in round four; eleven further rounds are never reached. -/
def c3env : CollectionEnv :=
  ⟨Except.ok (),
   [⟨Except.ok [("https://www.linkedin.com/in/a"), ("https://www.linkedin.com/in/b")], Except.ok ()⟩,
    ⟨Except.ok [("https://www.linkedin.com/in/c"), ("https://www.linkedin.com/in/d")], Except.ok ()⟩,
    ⟨Except.ok [("https://www.linkedin.com/in/e")], Except.ok ()⟩,
    ⟨Except.error ("Execution context was destroyed"), Except.ok ()⟩,
    ⟨Except.ok [], Except.ok ()⟩, ⟨Except.ok [], Except.ok ()⟩, ⟨Except.ok [], Except.ok ()⟩,
    ⟨Except.ok [], Except.ok ()⟩, ⟨Except.ok [], Except.ok ()⟩, ⟨Except.ok [], Except.ok ()⟩,
    ⟨Except.ok [], Except.ok ()⟩, ⟨Except.ok [], Except.ok ()⟩, ⟨Except.ok [], Except.ok ()⟩,
    ⟨Except.ok [], Except.ok ()⟩, ⟨Except.ok [], Except.ok ()⟩]⟩

/-! ## Helper lemmas -/

theorem dedupGo_seen (l : List String) : ∀ (seen : List String) (x : String),
    x ∈ dedupGo seen l → seen.contains x = false := by
  induction l with
  | nil => intro seen x hx; simp [dedupGo] at hx
  | cons y ys ih =>
    intro seen x hx
    simp only [dedupGo] at hx
    split at hx
    · exact ih seen x hx
    · rcases List.mem_cons.mp hx with rfl | hx2
      · next h => simpa using h
      · have h2 := ih (y :: seen) x hx2
        rw [List.contains_cons] at h2
        exact (Bool.or_eq_false_iff.mp h2).2

theorem dedupGo_sub (l : List String) : ∀ (seen : List String) (x : String),
    x ∈ dedupGo seen l → x ∈ l := by
  induction l with
  | nil => intro seen x hx; simp [dedupGo] at hx
  | cons y ys ih =>
    intro seen x hx
    simp only [dedupGo] at hx
    split at hx
    · exact List.mem_cons_of_mem y (ih seen x hx)
    · rcases List.mem_cons.mp hx with rfl | hx2
      · exact List.mem_cons_self x ys
      · exact List.mem_cons_of_mem y (ih (y :: seen) x hx2)

theorem dedupGo_nodup (l : List String) : ∀ seen : List String, (dedupGo seen l).Nodup := by
  induction l with
  | nil => intro seen; simp [dedupGo]
  | cons y ys ih =>
    intro seen
    simp only [dedupGo]
    split
    · exact ih seen
    · refine List.nodup_cons.mpr ⟨fun hy => ?_, ih (y :: seen)⟩
      have h2 := dedupGo_seen ys (y :: seen) y hy
      rw [List.contains_cons] at h2
      simp at h2

theorem jsSetDedup_nodup (l : List String) : (jsSetDedup l).Nodup := dedupGo_nodup l []

theorem jsSetDedup_sub (l : List String) (x : String) (hx : x ∈ jsSetDedup l) : x ∈ l :=
  dedupGo_sub l [] x hx

theorem expandLoop_error_round (maxProfiles : Nat) (m : String) (p : Except String Unit)
    (rest : List RoundEnv) : ∀ (good : List RoundEnv) (acc : List String),
    expandLoop maxProfiles acc (good ++ ⟨Except.error m, p⟩ :: rest) =
      expandLoop maxProfiles acc good := by
  intro good
  induction good with
  | nil => intro acc; simp [expandLoop]
  | cons g gs ih =>
    intro acc
    rw [List.cons_append]
    show expandLoop maxProfiles acc (g :: (gs ++ ⟨Except.error m, p⟩ :: rest)) =
      expandLoop maxProfiles acc (g :: gs)
    simp only [expandLoop]
    cases hg : g.hrefs with
    | error e => rfl
    | ok hs =>
      simp only []
      by_cases hc : maxProfiles ≤ (harvestRound maxProfiles acc hs).length
      · simp [hc]
      · simp only [if_neg hc]
        cases hp : g.post with
        | error e => rfl
        | ok u => exact ih _

theorem scrapeProfile_url (env : PageEnv) (url : String) :
    (scrapeProfile env url).url = url := by
  unfold scrapeProfile
  cases env.gotoRes with
  | error m => rfl
  | ok u =>
    cases (if env.contactVisible then env.interactRes else Except.ok ()) with
    | error m => rfl
    | ok v =>
      cases env.contentRes with
      | error m => rfl
      | ok t =>
        cases env.hrefsRes with
        | error m => rfl
        | ok hs => rfl

/-! ## Claim theorems -/

/-- Claim C1, counterexample: phone extraction does not normalize
Eastern Arabic-Indic digits; on the page text made of the digits
U+06F0 U+0665 U+0665 U+0661 U+0662 U+0663 U+0664 U+0665 U+0666 U+0667
it does not yield the ASCII-digit equivalent string. -/
theorem c1_counterexample :
    extractPhones ("۰٥٥١٢٣٤٥٦٧") ≠ ["0551234567"] := by decide

/-- Claim C1, amended: phone extraction performs no digit normalization
at all; its pattern matches only ASCII digits, so the Eastern
Arabic-Indic scenario input yields no phone strings, while the ASCII
spelling of the same number is extracted verbatim. -/
theorem c1_no_digit_normalization :
    extractPhones ("۰٥٥١٢٣٤٥٦٧") = [] ∧
    extractPhones ("0551234567") = ["0551234567"] := by
  constructor <;> rfl

/-- Claim C4, counterexample: on the scenario text the two case-variant
spellings of the address survive as two distinct entries, not one. -/
theorem c4_counterexample :
    (extractEmails ("Contact: A.Name@Example.com, A.NAME@example.com")).length ≠ 1 := by
  decide

/-- Claim C4, amended: email matching is case-insensitive but
deduplication compares exact strings, so the scenario text yields
exactly the two case-variant entries in match order. -/
theorem c4_case_sensitive_dedupe :
    extractEmails ("Contact: A.Name@Example.com, A.NAME@example.com") =
      ["A.Name@Example.com", "A.NAME@example.com"] := by
  rfl

/-- Claim C6, counterexample: on the scenario input the classification
and deduplication step does not produce exactly one direct target,
because the host `site` does not match the profile signature
`linkedin.com/in/`, so zero direct targets result. -/
theorem c6_counterexample :
    ((classifyInputs ("https://site/in/alice\nhttps://site/in/alice?x=1\n#")).1).length ≠ 1 := by
  decide

/-- Claim C6, amended: the comment line is ignored, but deduplication is
by exact raw string with no query-parameter normalization, and only URLs
containing `linkedin.com/in/` are direct targets: the literal scenario
input yields zero direct targets, and the same input with linkedin.com
hosts yields two distinct direct targets for alice, not one. -/
theorem c6_exact_string_dedupe :
    (classifyInputs ("https://site/in/alice\nhttps://site/in/alice?x=1\n#")).1 = [] ∧
    (classifyInputs
        ("https://www.linkedin.com/in/alice\nhttps://www.linkedin.com/in/alice?x=1\n#")).1 =
      ["https://www.linkedin.com/in/alice", "https://www.linkedin.com/in/alice?x=1"] := by
  constructor <;> rfl

/-- Claim C3: the collection expander never propagates an error. A round
whose harvest throws makes the loop return exactly the set accumulated
by the preceding rounds, whatever comes after; a failed navigation
yields the empty set; and on the scenario environment (five targets
found in three rounds, a throw in round four of fifteen) exactly those
five targets are returned. -/
theorem c3_expander_swallows_errors :
    (∀ (maxProfiles : Nat) (acc : List String) (good rest : List RoundEnv)
      (m : String) (p : Except String Unit),
      expandLoop maxProfiles acc (good ++ ⟨Except.error m, p⟩ :: rest) =
        expandLoop maxProfiles acc good) ∧
    (∀ (rounds : List RoundEnv) (m : String) (maxProfiles : Nat),
      expandPeopleCollectionToProfiles ⟨Except.error m, rounds⟩ maxProfiles = []) ∧
    expandPeopleCollectionToProfiles c3env 30 =
      ["https://www.linkedin.com/in/a", "https://www.linkedin.com/in/b",
       "https://www.linkedin.com/in/c", "https://www.linkedin.com/in/d",
       "https://www.linkedin.com/in/e"] :=
  ⟨fun mp acc good rest m p => expandLoop_error_round mp m p rest good acc,
   fun _ _ _ => rfl, by rfl⟩

/-- Claim C9: the session close operation is not executed on every exit
path. When `ensureLoggedIn` throws after the browsing context was
created (first conjunct), the error propagates out of `main` and the
event trace contains the launch but no close (second conjunct); only the
success path closes the context (third conjunct). -/
theorem c9_close_skipped_on_error_path :
    phase1Events (Except.ok ()) (Except.error ("net::ERR_CONNECTION_TIMED_OUT")) =
      ([MEv.launched], Except.error ("net::ERR_CONNECTION_TIMED_OUT")) ∧
    MEv.closed ∉ (phase1Events (Except.ok ())
      (Except.error ("net::ERR_CONNECTION_TIMED_OUT"))).1 ∧
    phase1Events (Except.ok ()) (Except.ok ()) = ([MEv.launched, MEv.closed], Except.ok ()) :=
  ⟨rfl, by decide, rfl⟩

/-- Claim C5, counterexample: classification is not exclusive. This
string contains both the profile signature and the company-people
signature as substrings, so both predicates accept it and `main` treats
it as a direct target and as a collection at the same time. -/
theorem c5_counterexample :
    isProfileUrl ("https://linkedin.com/in/a?x=linkedin.com/company/b/people/") = true ∧
    isPeopleCollectionUrl ("https://linkedin.com/in/a?x=linkedin.com/company/b/people/") = true := by
  constructor <;> rfl

/-- Claim C5, amended: classification is total and deterministic (both
predicates are pure total functions of the string), and it is exclusive
for every string that does not match both signatures at once: such a
string falls in exactly one of DirectTarget, Collection, Rejected. -/
theorem c5_classification_exclusive_unless_dual (s : String)
    (h : ¬(isProfileUrl s = true ∧ isPeopleCollectionUrl s = true)) :
    (isProfileUrl s = true ∧ isPeopleCollectionUrl s = false) ∨
    (isProfileUrl s = false ∧ isPeopleCollectionUrl s = true) ∨
    (isProfileUrl s = false ∧ isPeopleCollectionUrl s = false) := by
  cases hp : isProfileUrl s <;> cases hc : isPeopleCollectionUrl s <;> simp_all

/-- Witness for the amended claim C5 at a concrete profile URL. -/
theorem c5_classification_witness :
    (isProfileUrl ("https://www.linkedin.com/in/alice") = true ∧
      isPeopleCollectionUrl ("https://www.linkedin.com/in/alice") = false) ∨
    (isProfileUrl ("https://www.linkedin.com/in/alice") = false ∧
      isPeopleCollectionUrl ("https://www.linkedin.com/in/alice") = true) ∨
    (isProfileUrl ("https://www.linkedin.com/in/alice") = false ∧
      isPeopleCollectionUrl ("https://www.linkedin.com/in/alice") = false) :=
  c5_classification_exclusive_unless_dual ("https://www.linkedin.com/in/alice") (by decide)

/-- Claim C10: URL normalization returns the input unchanged exactly
when it is empty or starts with `http`, and otherwise prepends the
canonical origin; in particular mailto: and tel: hrefs become
origin-prefixed strings that the allow-list still keeps, because the
allow-list test is a substring match. -/
theorem c10_toAbsoluteUrl_and_allowlist (url : String) :
    (toAbsoluteUrl url = url ↔ (url = "" ∨ strStartsWith url ("http") = true)) ∧
    toAbsoluteUrl ("mailto:a@b.com") = "https://www.linkedin.commailto:a@b.com" ∧
    keepLink (toAbsoluteUrl ("mailto:a@b.com")) = true ∧
    toAbsoluteUrl ("tel:+96899123456") = "https://www.linkedin.comtel:+96899123456" ∧
    keepLink (toAbsoluteUrl ("tel:+96899123456")) = true := by
  refine ⟨⟨fun h => ?_, fun h => ?_⟩, by rfl, by rfl, by rfl, by rfl⟩
  · by_cases h0 : url = ""
    · exact Or.inl h0
    by_cases h1 : strStartsWith url ("http") = true
    · exact Or.inr h1
    exfalso
    have hne : (url == "") = false := by simp [h0]
    have h1f : strStartsWith url ("http") = false := by
      rw [← Bool.not_eq_true]; exact h1
    rw [toAbsoluteUrl, hne] at h
    simp only [Bool.false_eq_true, if_false, h1f] at h
    have hlen := congrArg String.length h
    rw [String.length_append] at hlen
    have h24 : ("https://www.linkedin.com" : String).length = 24 := by rfl
    omega
  · rcases h with h0 | h1
    · subst h0; rfl
    · rw [toAbsoluteUrl]
      by_cases h0 : (url == "") = true
      · rw [if_pos h0]
      · rw [if_neg (by simp_all), if_pos h1]

/-- Claim C2: the target extractor never propagates an exception. For
every page environment and URL: the record always carries the input url;
the error field is empty exactly when no fallible step threw; an error
message always is the message of one of the fallible steps; and fields
collected before the first failing step keep their collected values
(name and headline survive anything after navigation, emails and phones
survive a failure of the link harvest). -/
theorem c2_target_extractor_boundary (env : PageEnv) (url : String) :
    (scrapeProfile env url).url = url ∧
    ((scrapeProfile env url).error = none ↔
      (env.gotoRes.isOk = true ∧ (env.contactVisible = true → env.interactRes.isOk = true) ∧
       env.contentRes.isOk = true ∧ env.hrefsRes.isOk = true)) ∧
    (∀ m, (scrapeProfile env url).error = some m →
      env.gotoRes = Except.error m ∨ env.interactRes = Except.error m ∨
      env.contentRes = Except.error m ∨ env.hrefsRes = Except.error m) ∧
    (env.gotoRes.isOk = true →
      (scrapeProfile env url).name = optText env.nameRaw ∧
      (scrapeProfile env url).headline = optText env.headlineRaw) ∧
    (∀ text, env.gotoRes.isOk = true →
      (if env.contactVisible then env.interactRes else Except.ok ()).isOk = true →
      env.contentRes = Except.ok text →
      (scrapeProfile env url).emails = extractEmails text ∧
      (scrapeProfile env url).phones = extractPhones text) := by
  obtain ⟨g, nr, hl, v, ir, cr, hf⟩ := env
  cases g <;> cases v <;> cases ir <;> cases cr <;> cases hf <;>
    simp_all [scrapeProfile, Except.isOk, Except.toBool]

/-- Witness for claim C2 on a concrete successful page visit. -/
theorem c2_boundary_witness :
    (scrapeProfile c2env ("https://www.linkedin.com/in/alice")).name = optText c2env.nameRaw ∧
    (scrapeProfile c2env ("https://www.linkedin.com/in/alice")).emails =
      extractEmails ("reach me: b@x.com a@x.com") ∧
    (scrapeProfile c2env ("https://www.linkedin.com/in/alice")).error = none := by
  have h := c2_target_extractor_boundary c2env ("https://www.linkedin.com/in/alice")
  exact ⟨(h.2.2.2.1 (by rfl)).1,
    (h.2.2.2.2 ("reach me: b@x.com a@x.com") (by rfl) (by rfl) (by rfl)).1,
    h.2.1.mpr (by decide)⟩

/-- Claim C7, counterexample: a record whose page text carries two
addresses in descending order reaches the export step with its email
list unsorted, and both the structured list and the tabular join
preserve that unsorted order. -/
theorem c7_counterexample :
    (scrapeProfile c7env ("u")).emails = ["b@x.com", "a@x.com"] ∧
    sortedAsc (scrapeProfile c7env ("u")).emails = false ∧
    csvListField (scrapeProfile c7env ("u")).emails = "b@x.com; a@x.com" :=
  ⟨by rfl, by rfl, by rfl⟩

/-- Claim C7, amended: the list fields of every record are deduplicated
(by exact string, at extraction time), but no sorting happens before
serialization: both output modes serialize the lists in extraction
order, as the concrete join shows. -/
theorem c7_dedup_without_sort (env : PageEnv) (url : String) :
    ((scrapeProfile env url).emails.Nodup ∧ (scrapeProfile env url).phones.Nodup ∧
     (scrapeProfile env url).links.Nodup) ∧
    csvListField (extractEmails ("b@x.com a@x.com")) = "b@x.com; a@x.com" := by
  refine ⟨?_, by rfl⟩
  unfold scrapeProfile
  cases env.gotoRes with
  | error m => exact ⟨List.nodup_nil, List.nodup_nil, List.nodup_nil⟩
  | ok u =>
    cases (if env.contactVisible then env.interactRes else Except.ok ()) with
    | error m => exact ⟨List.nodup_nil, List.nodup_nil, List.nodup_nil⟩
    | ok v =>
      cases env.contentRes with
      | error m => exact ⟨List.nodup_nil, List.nodup_nil, List.nodup_nil⟩
      | ok t =>
        cases env.hrefsRes with
        | error m => exact ⟨jsSetDedup_nodup _, jsSetDedup_nodup _, List.nodup_nil⟩
        | ok hs => exact ⟨jsSetDedup_nodup _, jsSetDedup_nodup _, jsSetDedup_nodup _⟩

/-- Claim C8: records appear in the result set in exactly target-list
order: mapping each record back to its url reproduces the target list,
one record exists per target, and when every input is a profile URL the
target list is precisely the first-occurrence deduplication of the
direct inputs followed by the collection discoveries. -/
theorem c8_resultset_in_target_order (envOf : String → PageEnv) (direct expanded : List String) :
    (runSequencer envOf (finalTargets direct expanded)).map Record.url =
      finalTargets direct expanded ∧
    (runSequencer envOf (finalTargets direct expanded)).length =
      (finalTargets direct expanded).length ∧
    ((∀ u ∈ direct, isProfileUrl u = true) → (∀ u ∈ expanded, isProfileUrl u = true) →
      finalTargets direct expanded = jsSetDedup (direct ++ expanded)) := by
  have hmap : ∀ ts : List String,
      (ts.map (fun u => scrapeProfile (envOf u) u)).map Record.url = ts := by
    intro ts
    induction ts with
    | nil => rfl
    | cons a as ih => simp [scrapeProfile_url, ih]
  refine ⟨hmap _, ?_, ?_⟩
  · simp [runSequencer]
  · intro hd he
    unfold finalTargets
    apply List.filter_eq_self.mpr
    intro a ha
    rcases List.mem_append.mp (jsSetDedup_sub _ a ha) with h | h
    · exact hd a h
    · exact he a h

/-- Witness for claim C8 on concrete direct and expanded target lists. -/
theorem c8_order_witness :
    finalTargets ["https://www.linkedin.com/in/alice"] ["https://www.linkedin.com/in/bob"] =
      jsSetDedup (["https://www.linkedin.com/in/alice"] ++ ["https://www.linkedin.com/in/bob"]) :=
  (c8_resultset_in_target_order (fun _ => c2env)
    ["https://www.linkedin.com/in/alice"] ["https://www.linkedin.com/in/bob"]).2.2
    (by decide) (by decide)

end Banks
